import Mathlib

/-!
Verification of the 0lib core headers.

This file gives a shallow embedding of the constants, macros and data
shapes declared in `code/winsock.h`, `code/raw_disk.h` and
`code/crypto/md.h`, together with a functional model of the generic
message-digest engine whose implementation bodies live outside the
header set, and proves the specified properties about them.
Machine integers are embedded as `Nat`/`Int`, with explicit `% 2 ^ 64`
where C word-size wraparound matters.
-/

/-! ## winsock.h : AFD kernel interface constants -/

/-- Windows DDK device-class constant for network devices (external to the
repository; the header references it by name). -/
def FILE_DEVICE_NETWORK : Nat := 0x12

/-- Windows DDK buffered I/O transfer method (external constant). -/
def METHOD_BUFFERED : Nat := 0

/-- Windows DDK direct ("neither") I/O transfer method (external constant). -/
def METHOD_NEITHER : Nat := 3

/-- `#define FSCTL_AFD_BASE FILE_DEVICE_NETWORK` -/
def FSCTL_AFD_BASE : Nat := FILE_DEVICE_NETWORK

/-- `#define _AFD_CONTROL_CODE(operation, method)
      ((FSCTL_AFD_BASE) << 12 | (operation << 2) | method)` -/
def _AFD_CONTROL_CODE (operation method : Nat) : Nat :=
  (FSCTL_AFD_BASE <<< 12) ||| (operation <<< 2) ||| method

/-- `#define AFD_RECEIVE 5` -/
def AFD_RECEIVE : Nat := 5

/-- `#define AFD_RECEIVE_DATAGRAM 6` -/
def AFD_RECEIVE_DATAGRAM : Nat := 6

/-- `#define AFD_POLL 9` -/
def AFD_POLL : Nat := 9

/-- `IOCTL_AFD_RECEIVE` -/
def IOCTL_AFD_RECEIVE : Nat := _AFD_CONTROL_CODE AFD_RECEIVE METHOD_NEITHER

/-- `IOCTL_AFD_RECEIVE_DATAGRAM` -/
def IOCTL_AFD_RECEIVE_DATAGRAM : Nat :=
  _AFD_CONTROL_CODE AFD_RECEIVE_DATAGRAM METHOD_NEITHER

/-- `IOCTL_AFD_POLL` -/
def IOCTL_AFD_POLL : Nat := _AFD_CONTROL_CODE AFD_POLL METHOD_BUFFERED

/-! Poll event bits. -/

def AFD_POLL_RECEIVE_BIT : Nat := 0
def AFD_POLL_RECEIVE : Nat := 1 <<< AFD_POLL_RECEIVE_BIT
def AFD_POLL_RECEIVE_EXPEDITED_BIT : Nat := 1
def AFD_POLL_RECEIVE_EXPEDITED : Nat := 1 <<< AFD_POLL_RECEIVE_EXPEDITED_BIT
def AFD_POLL_SEND_BIT : Nat := 2
def AFD_POLL_SEND : Nat := 1 <<< AFD_POLL_SEND_BIT
def AFD_POLL_DISCONNECT_BIT : Nat := 3
def AFD_POLL_DISCONNECT : Nat := 1 <<< AFD_POLL_DISCONNECT_BIT
def AFD_POLL_ABORT_BIT : Nat := 4
def AFD_POLL_ABORT : Nat := 1 <<< AFD_POLL_ABORT_BIT
def AFD_POLL_LOCAL_CLOSE_BIT : Nat := 5
def AFD_POLL_LOCAL_CLOSE : Nat := 1 <<< AFD_POLL_LOCAL_CLOSE_BIT
def AFD_POLL_CONNECT_BIT : Nat := 6
def AFD_POLL_CONNECT : Nat := 1 <<< AFD_POLL_CONNECT_BIT
def AFD_POLL_ACCEPT_BIT : Nat := 7
def AFD_POLL_ACCEPT : Nat := 1 <<< AFD_POLL_ACCEPT_BIT
def AFD_POLL_CONNECT_FAIL_BIT : Nat := 8
def AFD_POLL_CONNECT_FAIL : Nat := 1 <<< AFD_POLL_CONNECT_FAIL_BIT
def AFD_POLL_QOS_BIT : Nat := 9
def AFD_POLL_QOS : Nat := 1 <<< AFD_POLL_QOS_BIT
def AFD_POLL_GROUP_QOS_BIT : Nat := 10
def AFD_POLL_GROUP_QOS : Nat := 1 <<< AFD_POLL_GROUP_QOS_BIT

/-- `#define AFD_NUM_POLL_EVENTS 11` -/
def AFD_NUM_POLL_EVENTS : Nat := 11

/-- `#define AFD_POLL_ALL ((1 << AFD_NUM_POLL_EVENTS) - 1)` -/
def AFD_POLL_ALL : Nat := (1 <<< AFD_NUM_POLL_EVENTS) - 1

/-- The eleven poll event constants, in header order. -/
def afdPollEventList : List Nat :=
  [AFD_POLL_RECEIVE, AFD_POLL_RECEIVE_EXPEDITED, AFD_POLL_SEND,
   AFD_POLL_DISCONNECT, AFD_POLL_ABORT, AFD_POLL_LOCAL_CLOSE,
   AFD_POLL_CONNECT, AFD_POLL_ACCEPT, AFD_POLL_CONNECT_FAIL,
   AFD_POLL_QOS, AFD_POLL_GROUP_QOS]

/-! ## raw_disk.h -/

/-- `#define SECTOR_SIZE 512` -/
def SECTOR_SIZE : Nat := 512

def DSK_BASIC : Nat := 0
def DSK_DYN_SIMPLE : Nat := 1
def DSK_DYN_SPANNED : Nat := 2

/-- `#define IS_INVALID_SECTOR_SIZE(_s) ( (_s) % SECTOR_SIZE )` -/
def IS_INVALID_SECTOR_SIZE (s : Nat) : Nat := s % SECTOR_SIZE

/-- Machine word width used by the header's pointer/size arithmetic. -/
def WORD_SIZE : Nat := 64

/-- Truncation to the machine word, i.e. C unsigned wraparound. -/
def wordTrunc (x : Nat) : Nat := x % 2 ^ WORD_SIZE

/-- C bitwise complement `~x` on a machine word. -/
def wordCompl (x : Nat) : Nat := 2 ^ WORD_SIZE - 1 - wordTrunc x

/-- `#define _ALIGN(size, align) (((size) + ((align) - 1)) & ~((align) - 1))`
with C unsigned word arithmetic made explicit. -/
def _ALIGN (size align : Nat) : Nat :=
  wordTrunc (size + (align - 1)) &&& wordCompl (align - 1)

/-- The least multiple of `a` that is `≥ s` (for `0 < a`), written with the
same rounding expression the macro computes. -/
def leastAlignedMultiple (a s : Nat) : Nat := a * ((s + (a - 1)) / a)

/-- One entry of `drive_info_t.disks[16]`: extent location on one physical
drive. -/
structure disk_extent_t where
  number : Nat
  size : Nat
  prt_start : Nat
  prt_size : Nat

/-- `drive_info_t`: drive descriptor with its fixed 16-slot extent array. -/
structure drive_info_t where
  dsk_type : Nat
  dsk_num : Nat
  use_gpt : Int
  par_numb : Int
  par_size : Nat
  disks : { l : List disk_extent_t // l.length = 16 }

/-! ## crypto/md.h -/

def POLARSSL_ERR_MD_FEATURE_UNAVAILABLE : Int := -0x5080
def POLARSSL_ERR_MD_BAD_INPUT_DATA : Int := -0x5100
def POLARSSL_ERR_MD_ALLOC_FAILED : Int := -0x5180
def POLARSSL_ERR_MD_FILE_IO_ERROR : Int := -0x5200

/-- `md_type_t` enumeration. -/
inductive md_type_t where
  | POLARSSL_MD_NONE
  | POLARSSL_MD_SHA224
  | POLARSSL_MD_SHA256
  | POLARSSL_MD_SHA384
  | POLARSSL_MD_SHA512
deriving DecidableEq

/-- Numeric value of each `md_type_t` enumerant (C enum starting at 0). -/
def md_type_val : md_type_t → Nat
  | .POLARSSL_MD_NONE => 0
  | .POLARSSL_MD_SHA224 => 1
  | .POLARSSL_MD_SHA256 => 2
  | .POLARSSL_MD_SHA384 => 3
  | .POLARSSL_MD_SHA512 => 4

/-- `POLARSSL_MD_MAX_SIZE` in the `POLARSSL_SHA512_C` configuration, the one
the spec describes (SHA-512 is among the supported algorithms). -/
def POLARSSL_MD_MAX_SIZE : Int := 64

/-- `md_info_t`: the identity part of a digest descriptor (type, name,
output size).  The C struct's function pointers are modelled separately by
`md_engine` below.  A C pointer that may be NULL is an `Option`. -/
structure md_info_t where
  type : md_type_t
  name : Option String
  size : Int

/-- `md_get_size`: returns 0 on NULL, else the descriptor's size field
converted to `uint8_t` (i.e. taken mod 256). -/
def md_get_size (md_info : Option md_info_t) : Nat :=
  match md_info with
  | none => 0
  | some i => (i.size % 256).toNat

/-- `md_get_type`: returns `POLARSSL_MD_NONE` on NULL, else the type field. -/
def md_get_type (md_info : Option md_info_t) : md_type_t :=
  match md_info with
  | none => md_type_t.POLARSSL_MD_NONE
  | some i => i.type

/-- `md_get_name`: returns NULL on NULL, else the name field. -/
def md_get_name (md_info : Option md_info_t) : Option String :=
  match md_info with
  | none => none
  | some i => i.name

/-- Modelled from the spec: descriptor for SHA-224; the registry bodies
(`md.c`) are not under `src/`, and §4.2 names SHA-224/256/384/512 as the
supported algorithms with their standard output sizes. -/
def sha224_info : md_info_t := ⟨.POLARSSL_MD_SHA224, some r"SHA224", 28⟩

/-- Modelled from the spec: descriptor for SHA-256. -/
def sha256_info : md_info_t := ⟨.POLARSSL_MD_SHA256, some r"SHA256", 32⟩

/-- Modelled from the spec: descriptor for SHA-384. -/
def sha384_info : md_info_t := ⟨.POLARSSL_MD_SHA384, some r"SHA384", 48⟩

/-- Modelled from the spec: descriptor for SHA-512. -/
def sha512_info : md_info_t := ⟨.POLARSSL_MD_SHA512, some r"SHA512", 64⟩

/-- Modelled from the spec: the registry's supported digest kinds. -/
def supported_digests : List md_info_t :=
  [sha224_info, sha256_info, sha384_info, sha512_info]

/-- A concrete drive descriptor, used to exhibit the data model at a
specific value. -/
def drive_info_example : drive_info_t :=
  ⟨DSK_BASIC, 0, 0, 0, 0, ⟨List.replicate 16 ⟨0, 0, 0, 0⟩, by simp⟩⟩

/-! ## Claim theorems -/

/-- C1: the AFD control code for an operation is
`(base_code << 12) | (operation_code << 2) | transfer_method` with
`base_code = FILE_DEVICE_NETWORK`, and the three issued control codes are
receive (operation 5, method neither), receive-datagram (operation 6,
method neither) and poll (operation 9, method buffered), pairwise
distinct. -/
theorem afd_control_codes :
    (∀ operation method : Nat,
      _AFD_CONTROL_CODE operation method =
        (FILE_DEVICE_NETWORK <<< 12) ||| (operation <<< 2) ||| method) ∧
    IOCTL_AFD_RECEIVE = _AFD_CONTROL_CODE 5 METHOD_NEITHER ∧
    IOCTL_AFD_RECEIVE_DATAGRAM = _AFD_CONTROL_CODE 6 METHOD_NEITHER ∧
    IOCTL_AFD_POLL = _AFD_CONTROL_CODE 9 METHOD_BUFFERED ∧
    AFD_RECEIVE = 5 ∧ AFD_RECEIVE_DATAGRAM = 6 ∧ AFD_POLL = 9 ∧
    METHOD_NEITHER ≠ METHOD_BUFFERED ∧
    List.Pairwise (fun a b => a ≠ b)
      [IOCTL_AFD_RECEIVE, IOCTL_AFD_RECEIVE_DATAGRAM, IOCTL_AFD_POLL] :=
  ⟨fun _ _ => rfl, by decide, by decide, by decide, by decide, by decide,
   by decide, by decide, by decide⟩

/-- C3: `IS_INVALID_SECTOR_SIZE s` is nonzero exactly when `s` is not a
multiple of the 512-byte sector size; an I/O length passes the check
exactly when 512 divides it. -/
theorem sector_size_check (s : Nat) :
    SECTOR_SIZE = 512 ∧
    (IS_INVALID_SECTOR_SIZE s ≠ 0 ↔ ¬ (512 ∣ s)) ∧
    (IS_INVALID_SECTOR_SIZE s = 0 ↔ 512 ∣ s) := by
  refine ⟨rfl, ?_, ?_⟩ <;>
    simp [IS_INVALID_SECTOR_SIZE, SECTOR_SIZE, Nat.dvd_iff_mod_eq_zero]

/-- C4: the eleven poll event constants are the single-bit values `2 ^ b`
for `b = 0, …, 10` in header order, pairwise distinct, and `AFD_POLL_ALL`
is exactly their union, `2 ^ 11 - 1`. -/
theorem afd_poll_event_bits :
    AFD_POLL_RECEIVE = 2 ^ 0 ∧ AFD_POLL_RECEIVE_EXPEDITED = 2 ^ 1 ∧
    AFD_POLL_SEND = 2 ^ 2 ∧ AFD_POLL_DISCONNECT = 2 ^ 3 ∧
    AFD_POLL_ABORT = 2 ^ 4 ∧ AFD_POLL_LOCAL_CLOSE = 2 ^ 5 ∧
    AFD_POLL_CONNECT = 2 ^ 6 ∧ AFD_POLL_ACCEPT = 2 ^ 7 ∧
    AFD_POLL_CONNECT_FAIL = 2 ^ 8 ∧ AFD_POLL_QOS = 2 ^ 9 ∧
    AFD_POLL_GROUP_QOS = 2 ^ 10 ∧
    List.Pairwise (fun a b => a ≠ b) afdPollEventList ∧
    AFD_POLL_ALL = 2 ^ 11 - 1 ∧
    AFD_POLL_ALL = afdPollEventList.foldr (fun a b => a ||| b) 0 := by
  decide

/-- C5: the registry-declared maximum digest output size is 64 bytes and
every supported digest kind's output size is at most 64. -/
theorem md_max_size_spec :
    POLARSSL_MD_MAX_SIZE = 64 ∧
    ∀ i ∈ supported_digests, i.size ≤ POLARSSL_MD_MAX_SIZE := by
  decide

/-- C6: for a descriptor whose size field lies in 0..255, `md_get_size`
returns exactly that field, and `md_get_size` of NULL returns 0. -/
theorem md_get_size_spec :
    (∀ i : md_info_t, 0 ≤ i.size → i.size ≤ 255 →
      (md_get_size (some i) : Int) = i.size) ∧
    md_get_size none = 0 := by
  constructor
  · intro i h0 h255
    simp only [md_get_size]
    rw [Int.emod_eq_of_lt h0 (by omega)]
    exact Int.toNat_of_nonneg h0
  · rfl

/-- C6 witness: instantiated at the SHA-256 descriptor (size field 32). -/
theorem md_get_size_spec_witness :
    0 ≤ sha256_info.size ∧ sha256_info.size ≤ 255 ∧
    (md_get_size (some sha256_info) : Int) = sha256_info.size :=
  ⟨by decide, by decide, md_get_size_spec.1 sha256_info (by decide) (by decide)⟩

/-- C7: the four digest-module error constants are pairwise distinct
negative integers, each distinct from the success value 0. -/
theorem md_error_codes_distinct :
    List.Pairwise (fun a b => a ≠ b)
      [POLARSSL_ERR_MD_FEATURE_UNAVAILABLE, POLARSSL_ERR_MD_BAD_INPUT_DATA,
       POLARSSL_ERR_MD_ALLOC_FAILED, POLARSSL_ERR_MD_FILE_IO_ERROR] ∧
    ∀ c ∈ [POLARSSL_ERR_MD_FEATURE_UNAVAILABLE, POLARSSL_ERR_MD_BAD_INPUT_DATA,
       POLARSSL_ERR_MD_ALLOC_FAILED, POLARSSL_ERR_MD_FILE_IO_ERROR],
      c < 0 ∧ c ≠ 0 := by
  decide

/-- C8: a drive descriptor's extent array has exactly 16 slots, so every
extent count drawn from it is between 0 and 16. -/
theorem drive_info_extent_slots (d : drive_info_t) :
    d.disks.val.length = 16 ∧
    ∀ n : Nat, n ≤ d.disks.val.length → n ≤ 16 := by
  refine ⟨d.disks.property, ?_⟩
  intro n hn
  rw [d.disks.property] at hn
  exact hn

/-- C8 witness: instantiated at a concrete drive descriptor and count 5. -/
theorem drive_info_extent_slots_witness :
    (5 : Nat) ≤ drive_info_example.disks.val.length ∧
    (drive_info_example.disks.val.length = 16 ∧ (5 : Nat) ≤ 16) :=
  ⟨by simp [drive_info_example],
   ⟨(drive_info_extent_slots drive_info_example).1,
    (drive_info_extent_slots drive_info_example).2 5
      (by simp [drive_info_example])⟩⟩

/-- C10: the descriptor accessors are total on NULL input:
`md_get_type none` is `POLARSSL_MD_NONE` (enumerant value 0) and
`md_get_name none` is NULL. -/
theorem md_accessors_null_safe :
    md_get_type none = md_type_t.POLARSSL_MD_NONE ∧
    md_type_val (md_get_type none) = 0 ∧
    md_get_name none = none :=
  ⟨rfl, rfl, rfl⟩

/-! ## Generic digest engine (functional model)

The bodies of `md_starts` / `md_update` / `md_finish` / `md` and the
per-algorithm transforms live in translation units outside the header
set, so the engine is modelled from the spec. -/

/-- Modelled from the spec: a digest descriptor's capability set (§3, §4.2)
reduced to its semantics — a block size, an initial working state, a
block-process primitive, and a pad/finalize step that consumes the working
state and the buffered partial block.  The `md.c` / `sha*.c` bodies are
not under `src/`. -/
structure md_engine (α : Type) where
  block_size : Nat
  block_pos : 0 < block_size
  init : α
  process : α → List Nat → α
  finalize : α → List Nat → List Nat

/-- Process as many full blocks as fit, fuel-bounded for structural
recursion; returns the new working state and the unconsumed tail. -/
def md_blocks_go {α : Type} (e : md_engine α) : Nat → α → List Nat → α × List Nat
  | 0, acc, buf => (acc, buf)
  | fuel + 1, acc, buf =>
    if e.block_size ≤ buf.length then
      md_blocks_go e fuel (e.process acc (buf.take e.block_size))
        (buf.drop e.block_size)
    else
      (acc, buf)

/-- Consume every full block of `buf`, leaving the partial tail pending. -/
def md_update_blocks {α : Type} (e : md_engine α) (acc : α) (buf : List Nat) :
    α × List Nat :=
  md_blocks_go e buf.length acc buf

/-- Modelled from the spec: a digest session (`md_context_t` plus the
algorithm working state) — the running state and the buffered partial
block. -/
structure md_state (α : Type) where
  acc : α
  pending : List Nat

/-- Modelled from the spec: `md_starts` — fresh working state, empty
buffer. -/
def md_starts {α : Type} (e : md_engine α) : md_state α := ⟨e.init, []⟩

/-- Modelled from the spec: `md_update` — append the input to the pending
partial block and process every full block. -/
def md_update {α : Type} (e : md_engine α) (s : md_state α)
    (input : List Nat) : md_state α :=
  let r := md_update_blocks e s.acc (s.pending ++ input)
  ⟨r.1, r.2⟩

/-- Modelled from the spec: `md_finish` — pad/finalize the working state
with the pending partial block. -/
def md_finish {α : Type} (e : md_engine α) (s : md_state α) : List Nat :=
  e.finalize s.acc s.pending

/-- Modelled from the spec: `md` — the one-shot digest, processing the
whole buffer's full blocks directly from the initial state and finalizing
with the remainder. -/
def md {α : Type} (e : md_engine α) (input : List Nat) : List Nat :=
  let r := md_update_blocks e e.init input
  e.finalize r.1 r.2

theorem md_blocks_go_fuel {α : Type} (e : md_engine α) :
    ∀ f1 f2 acc (buf : List Nat), buf.length ≤ f1 → buf.length ≤ f2 →
      md_blocks_go e f1 acc buf = md_blocks_go e f2 acc buf := by
  intro f1
  induction f1 with
  | zero =>
    intro f2 acc buf h1 _
    have hb : buf.length = 0 := Nat.le_zero.mp h1
    have hnil : buf = [] := List.length_eq_zero.mp hb
    subst hnil
    cases f2 with
    | zero => rfl
    | succ g =>
      simp only [md_blocks_go]
      have hc : ¬ e.block_size ≤ ([] : List Nat).length := by
        have := e.block_pos
        simp only [List.length_nil]
        omega
      rw [if_neg hc]
  | succ f1 ih =>
    intro f2 acc buf h1 h2
    cases f2 with
    | zero =>
      have hb : buf.length = 0 := Nat.le_zero.mp h2
      have hnil : buf = [] := List.length_eq_zero.mp hb
      subst hnil
      simp only [md_blocks_go]
      have hc : ¬ e.block_size ≤ ([] : List Nat).length := by
        have := e.block_pos
        simp only [List.length_nil]
        omega
      rw [if_neg hc]
    | succ g =>
      simp only [md_blocks_go]
      by_cases hB : e.block_size ≤ buf.length
      · simp only [hB, if_true]
        apply ih
        · have := e.block_pos
          simp [List.length_drop]
          omega
        · have := e.block_pos
          simp [List.length_drop]
          omega
      · simp [hB]

theorem md_update_blocks_step {α : Type} (e : md_engine α) (acc : α)
    (buf : List Nat) (hB : e.block_size ≤ buf.length) :
    md_update_blocks e acc buf =
      md_update_blocks e (e.process acc (buf.take e.block_size))
        (buf.drop e.block_size) := by
  unfold md_update_blocks
  have hpos : 0 < buf.length := Nat.lt_of_lt_of_le e.block_pos hB
  obtain ⟨m, hm⟩ : ∃ m, buf.length = m + 1 :=
    ⟨buf.length - 1, by omega⟩
  rw [hm]
  simp only [md_blocks_go, hB, if_true]
  apply md_blocks_go_fuel
  · have := e.block_pos
    simp [List.length_drop]
    omega
  · simp [List.length_drop]

theorem md_update_blocks_small {α : Type} (e : md_engine α) (acc : α)
    (buf : List Nat) (hB : buf.length < e.block_size) :
    md_update_blocks e acc buf = (acc, buf) := by
  unfold md_update_blocks
  have hc : ¬ e.block_size ≤ buf.length := by omega
  cases hbuf : buf.length with
  | zero => rfl
  | succ m =>
    simp only [md_blocks_go]
    rw [if_neg hc]

theorem md_update_blocks_append {α : Type} (e : md_engine α) :
    ∀ n (buf : List Nat), buf.length ≤ n → ∀ acc (ys : List Nat),
      md_update_blocks e acc (buf ++ ys) =
        md_update_blocks e (md_update_blocks e acc buf).1
          ((md_update_blocks e acc buf).2 ++ ys) := by
  intro n
  induction n with
  | zero =>
    intro buf h acc ys
    have hnil : buf = [] := List.length_eq_zero.mp (Nat.le_zero.mp h)
    subst hnil
    rw [md_update_blocks_small e acc [] (by simpa using e.block_pos)]
  | succ n ih =>
    intro buf h acc ys
    by_cases hB : e.block_size ≤ buf.length
    · have htake : (buf ++ ys).take e.block_size = buf.take e.block_size :=
        List.take_append_of_le_length hB
      have hdrop : (buf ++ ys).drop e.block_size = buf.drop e.block_size ++ ys :=
        List.drop_append_of_le_length hB
      rw [md_update_blocks_step e acc (buf ++ ys)
            (by simp [List.length_append]; omega),
          htake, hdrop,
          md_update_blocks_step e acc buf hB]
      apply ih
      have := e.block_pos
      simp [List.length_drop]
      omega
    · rw [md_update_blocks_small e acc buf (Nat.lt_of_not_le hB)]

theorem md_update_append {α : Type} (e : md_engine α) (s : md_state α)
    (xs ys : List Nat) :
    md_update e (md_update e s xs) ys = md_update e s (xs ++ ys) := by
  simp only [md_update]
  rw [← List.append_assoc,
      md_update_blocks_append e (s.pending ++ xs).length (s.pending ++ xs)
        (Nat.le_refl _) s.acc ys]

/-- C2: for every digest engine, the one-shot `md` over a buffer equals
`md_starts`; `md_update` of the whole buffer; `md_finish`, byte for byte;
and feeding the buffer as two successive non-empty `md_update` chunks
yields the same output as one `md_update` of the whole buffer. -/
theorem md_oneshot_streaming_equiv {α : Type} (e : md_engine α)
    (buffer xs ys : List Nat) (hxs : xs ≠ []) (hys : ys ≠ [])
    (hsplit : buffer = xs ++ ys) :
    md e buffer = md_finish e (md_update e (md_starts e) buffer) ∧
    md_finish e (md_update e (md_update e (md_starts e) xs) ys) =
      md_finish e (md_update e (md_starts e) buffer) := by
  constructor
  · simp [md, md_finish, md_update, md_starts]
  · rw [md_update_append, ← hsplit]

/-- Concrete digest engine used to exhibit the model at specific values:
the working state records the processed blocks, finalize emits them with
the pending tail. -/
def md_engine_test : md_engine (List (List Nat)) :=
  ⟨2, by decide, [], fun acc b => acc ++ [b],
   fun acc pending => acc.flatten ++ pending⟩

/-- C2 witness: instantiated at a concrete engine with buffer `[1, 2, 3]`
split into `[1]` and `[2, 3]`. -/
theorem md_oneshot_streaming_equiv_witness :
    ([1] : List Nat) ≠ [] ∧ ([2, 3] : List Nat) ≠ [] ∧
    ([1, 2, 3] : List Nat) = [1] ++ [2, 3] ∧
    (md md_engine_test [1, 2, 3] =
      md_finish md_engine_test (md_update md_engine_test (md_starts md_engine_test) [1, 2, 3]) ∧
     md_finish md_engine_test
        (md_update md_engine_test (md_update md_engine_test (md_starts md_engine_test) [1]) [2, 3]) =
      md_finish md_engine_test (md_update md_engine_test (md_starts md_engine_test) [1, 2, 3])) :=
  ⟨by decide, by decide, rfl,
   md_oneshot_streaming_equiv md_engine_test [1, 2, 3] [1] [2, 3]
     (by decide) (by decide) rfl⟩

/-! ## The `_ALIGN` macro -/

theorem land_high_mask (w k r : Nat) (hk : k ≤ w) :
    r &&& (2 ^ w - 2 ^ k) = 2 ^ k * (r % 2 ^ w / 2 ^ k) := by
  have hsplit : 2 ^ w - 2 ^ k = 2 ^ k * (2 ^ (w - k) - 1) := by
    have h1 : 2 ^ k * 2 ^ (w - k) = 2 ^ w := by
      rw [← pow_add]
      congr 1
      omega
    rw [Nat.mul_sub, Nat.mul_one, h1]
  apply Nat.eq_of_testBit_eq
  intro i
  rw [Nat.testBit_land, hsplit, Nat.testBit_mul_pow_two,
      Nat.testBit_two_pow_sub_one, ← Nat.shiftRight_eq_div_pow,
      Nat.testBit_mul_pow_two, Nat.testBit_shiftRight, Nat.testBit_mod_two_pow]
  by_cases hik : k ≤ i
  · have h3 : k + (i - k) = i := by omega
    rw [h3, Bool.eq_iff_iff]
    simp only [Bool.and_eq_true, decide_eq_true_eq, ge_iff_le]
    constructor
    · rintro ⟨hr, _, hlt⟩
      exact ⟨hik, by omega, hr⟩
    · rintro ⟨_, hiw, hr⟩
      exact ⟨hr, hik, by omega⟩
  · simp [hik]

/-- C9: for every size `s` that fits the machine word and every positive
power-of-two alignment `2 ^ k`, `_ALIGN s (2 ^ k)` equals, modulo the
machine word size, the least multiple of `2 ^ k` that is at least `s`. -/
theorem align_spec (s k : Nat) (hs : s < 2 ^ 64) (hk : k < 64) :
    _ALIGN s (2 ^ k) = leastAlignedMultiple (2 ^ k) s % 2 ^ 64 ∧
    2 ^ k ∣ leastAlignedMultiple (2 ^ k) s ∧
    s ≤ leastAlignedMultiple (2 ^ k) s ∧
    ∀ m : Nat, 2 ^ k ∣ m → s ≤ m → leastAlignedMultiple (2 ^ k) s ≤ m := by
  have hpos : 0 < 2 ^ k := Nat.two_pow_pos k
  have hklt : (2 : Nat) ^ k < 2 ^ 64 := Nat.pow_lt_pow_right (by norm_num) hk
  refine ⟨?_, ?_, ?_, ?_⟩
  · have hcompl : wordCompl (2 ^ k - 1) = 2 ^ 64 - 2 ^ k := by
      unfold wordCompl wordTrunc WORD_SIZE
      rw [Nat.mod_eq_of_lt (by omega : 2 ^ k - 1 < 2 ^ 64)]
      omega
    unfold _ALIGN
    rw [hcompl, land_high_mask 64 k _ (by omega)]
    unfold wordTrunc WORD_SIZE
    rw [Nat.mod_mod_of_dvd _ dvd_rfl]
    unfold leastAlignedMultiple
    have hsplit64 : (2 : Nat) ^ 64 = 2 ^ k * 2 ^ (64 - k) := by
      rw [← pow_add]
      congr 1
      omega
    rw [hsplit64, Nat.mod_mul_right_div_self, Nat.mul_mod_mul_left]
  · exact dvd_mul_right (2 ^ k) _
  · have hdm := Nat.div_add_mod (s + (2 ^ k - 1)) (2 ^ k)
    have hml : (s + (2 ^ k - 1)) % 2 ^ k < 2 ^ k := Nat.mod_lt _ hpos
    unfold leastAlignedMultiple
    omega
  · intro m hdvd hsm
    obtain ⟨t, rfl⟩ := hdvd
    unfold leastAlignedMultiple
    have h1 : s + (2 ^ k - 1) ≤ 2 ^ k * t + (2 ^ k - 1) := by omega
    have h2 : (s + (2 ^ k - 1)) / 2 ^ k ≤ (2 ^ k * t + (2 ^ k - 1)) / 2 ^ k :=
      Nat.div_le_div_right h1
    rw [Nat.mul_add_div hpos,
        Nat.div_eq_of_lt (show 2 ^ k - 1 < 2 ^ k by omega), Nat.add_zero] at h2
    exact Nat.mul_le_mul (Nat.le_refl _) h2

/-- C9 witness: instantiated at size 1000 and alignment 512 = 2 ^ 9. -/
theorem align_spec_witness :
    (1000 : Nat) < 2 ^ 64 ∧ (9 : Nat) < 64 ∧
    (_ALIGN 1000 (2 ^ 9) = leastAlignedMultiple (2 ^ 9) 1000 % 2 ^ 64 ∧
     2 ^ 9 ∣ leastAlignedMultiple (2 ^ 9) 1000 ∧
     1000 ≤ leastAlignedMultiple (2 ^ 9) 1000 ∧
     ∀ m : Nat, 2 ^ 9 ∣ m → 1000 ≤ m → leastAlignedMultiple (2 ^ 9) 1000 ≤ m) :=
  ⟨by decide, by decide, align_spec 1000 9 (by decide) (by decide)⟩
